import Mathlib

/-!
# Verification of the osrssg movement / gathering core

A shallow embedding of the simulation core of the `osrssg` repository:
the destination-arbitration pre-pass and per-unit integrator of
`src/systems/movement.rs`, the gather-order issuing and the gathering
state machine of `src/systems/gathering.rs`, and the inventory / resource
components of `src/components/mod.rs`.

Modelling conventions:
* `f32` coordinates are modelled by exact rationals (`ℚ`).  The source
  only ever uses Euclidean distances inside comparisons against
  non-negative thresholds (`d < r`, `d ≤ r`, `d > r`, or comparisons of
  two distances), and for `r ≥ 0`, `d ≤ r ↔ d² ≤ r²`; we therefore carry
  squared distances and compare against squared thresholds, which keeps
  every definition computable and decidable.
* The one place the source consumes the numeric *value* of a length
  (vector normalisation and the friendly-push overlap in the movement
  integrator) is parameterised by the square-root kernel `sqrtFn` the
  floating-point hardware provides; no verified claim depends on it.
* Machine integers (`u16`, `u32`) are modelled by `ℕ`; the one place an
  integer conversion can overflow — the `remaining as u16` cast in the
  harvest tick — is modelled explicitly with `% 65536`, and `u32`
  saturating subtraction coincides with truncated `ℕ` subtraction.
* ECS component attach/detach is modelled by explicit record fields
  (`Option` for removable components), and each Bevy system becomes a
  pure state-passing function.
-/

namespace Osrssg

/-- A 3D vector, modelling Bevy's `Vec3` with exact coordinates. -/
structure Vec3 where
  x : ℚ
  y : ℚ
  z : ℚ
deriving DecidableEq

instance : Add Vec3 := ⟨fun a b => ⟨a.x + b.x, a.y + b.y, a.z + b.z⟩⟩

instance : Sub Vec3 := ⟨fun a b => ⟨a.x - b.x, a.y - b.y, a.z - b.z⟩⟩

instance : Neg Vec3 := ⟨fun a => ⟨-a.x, -a.y, -a.z⟩⟩

/-- Scalar multiplication `v * c`, as in `direction * move_distance`. -/
instance : HMul Vec3 ℚ Vec3 := ⟨fun v c => ⟨v.x * c, v.y * c, v.z * c⟩⟩

@[simp] lemma Vec3.add_def (a b : Vec3) :
    a + b = ⟨a.x + b.x, a.y + b.y, a.z + b.z⟩ := rfl

@[simp] lemma Vec3.sub_def (a b : Vec3) :
    a - b = ⟨a.x - b.x, a.y - b.y, a.z - b.z⟩ := rfl

@[simp] lemma Vec3.neg_def (a : Vec3) : -a = ⟨-a.x, -a.y, -a.z⟩ := rfl

@[simp] lemma Vec3.smul_def (v : Vec3) (c : ℚ) :
    v * c = ⟨v.x * c, v.y * c, v.z * c⟩ := rfl

@[simp] lemma Vec3.mk_inj {a b c d e f : ℚ} :
    (⟨a, b, c⟩ : Vec3) = ⟨d, e, f⟩ ↔ a = d ∧ b = e ∧ c = f := by
  constructor
  · intro h
    exact ⟨congrArg Vec3.x h, congrArg Vec3.y h, congrArg Vec3.z h⟩
  · intro h
    obtain ⟨h1, h2, h3⟩ := h
    subst h1
    subst h2
    subst h3
    rfl

/-- Squared Euclidean distance.  `Vec3::distance(a, b) ≤ r ↔ dist2 a b ≤ r²`
for every threshold `r ≥ 0`, so all of the source's distance comparisons
are carried out on squared values. -/
def dist2 (a b : Vec3) : ℚ :=
  (a.x - b.x) ^ 2 + (a.y - b.y) ^ 2 + (a.z - b.z) ^ 2

/-- Squared length of a vector (`v.length()` squared). -/
def norm2 (v : Vec3) : ℚ := v.x ^ 2 + v.y ^ 2 + v.z ^ 2

/-- `distance ≤ r` expressed on the squared distance `d2 = distance²`:
true iff `r` is non-negative and `d2 ≤ r²` (a Euclidean distance is
never `≤` a negative threshold). -/
def distLe (d2 r : ℚ) : Bool := decide (0 ≤ r) && decide (d2 ≤ r ^ 2)

/-- `distance < r` expressed on the squared distance `d2 = distance²`. -/
def distLt (d2 r : ℚ) : Bool := decide (0 ≤ r) && decide (d2 < r ^ 2)

/-- `f32::round`: round to the nearest integer, ties away from zero
(the semantics of Rust's `round`).  The negative branch is written
`-⌊1/2 - q⌋`, which equals `⌈q - 1/2⌉`. -/
def rustRound (q : ℚ) : ℤ := if 0 ≤ q then ⌊q + 1 / 2⌋ else -⌊1 / 2 - q⌋

/-- `GRID_SIZE` from `movement.rs` / `input.rs`: one world unit per cell. -/
def gridSize : ℚ := 1

namespace Movement

/-- `snap_to_grid` from `src/systems/movement.rs`: rounds the two
horizontal axes to the nearest multiple of `GRID_SIZE` and pins the
vertical axis to the fixed ground height `0.1`. -/
def snap_to_grid (p : Vec3) : Vec3 :=
  ⟨(rustRound (p.x / gridSize) : ℚ) * gridSize,
   1 / 10,
   (rustRound (p.z / gridSize) : ℚ) * gridSize⟩

end Movement

namespace Gathering

/-- `snap_to_grid` from `src/systems/gathering.rs` (the same function
appears in `input.rs`): rounds the horizontal axes and keeps the
original height. -/
def snap_to_grid (p : Vec3) : Vec3 :=
  ⟨(rustRound p.x : ℚ), p.y, (rustRound p.z : ℚ)⟩

end Gathering

/-! ## Components (`src/components/mod.rs`) -/

/-- `ResourceKind`: the gatherable resource types. -/
inductive ResourceKind where
  | Copper
  | Tin
  | Wood
deriving DecidableEq

/-- `ItemId`: inventory item identifiers. -/
inductive ItemId where
  | CopperOre
  | TinOre
  | Logs
deriving DecidableEq

/-- `ItemId::max_stack_size`: every item stacks to 1 (no stacking). -/
def ItemId.max_stack_size : ItemId → ℕ
  | .CopperOre => 1
  | .TinOre => 1
  | .Logs => 1

/-- `impl From<ResourceKind> for ItemId`. -/
def ItemId.ofResourceKind : ResourceKind → ItemId
  | .Copper => .CopperOre
  | .Tin => .TinOre
  | .Wood => .Logs

/-- `ItemStack`: an (item, quantity) pair held by one inventory slot
(`qty` is a `u16` in the source). -/
structure ItemStack where
  id : ItemId
  qty : ℕ
deriving DecidableEq

/-- `ResourceNode`: a harvestable node.  `remaining` is a `u32`. -/
structure ResourceNode where
  kind : ResourceKind
  remaining : ℕ
  gather_rate : ℚ
  gather_radius : ℚ
deriving DecidableEq

/-- `Inventory`: the slotted container.  The source type is
`[Option<ItemStack>; 28]`; canonical inventories have 28 slots and
`add_items` never changes the slot count. -/
structure Inventory where
  slots : List (Option ItemStack)
deriving DecidableEq

/-- `Inventory::new` / `Default`: 28 empty slots. -/
def Inventory.new : Inventory := ⟨List.replicate 28 none⟩

/-- First loop of `Inventory::add_items`: top up existing stacks of the
same item, stopping as soon as nothing remains to place.  Returns the
updated slots and the quantity still unplaced. -/
def fillExisting (item : ItemId) (maxStack : ℕ) :
    List (Option ItemStack) → ℕ → List (Option ItemStack) × ℕ
  | [], rem => ([], rem)
  | s :: rest, rem =>
    if rem = 0 then (s :: rest, rem)
    else
      match s with
      | some st =>
        if st.id = item ∧ st.qty < maxStack then
          let canAdd := min (maxStack - st.qty) rem
          let r := fillExisting item maxStack rest (rem - canAdd)
          (some ⟨st.id, st.qty + canAdd⟩ :: r.1, r.2)
        else
          let r := fillExisting item maxStack rest rem
          (some st :: r.1, r.2)
      | none =>
        let r := fillExisting item maxStack rest rem
        (none :: r.1, r.2)

/-- Second loop of `Inventory::add_items`: put new stacks into empty
slots (the last stack written may be partial). -/
def fillEmpty (item : ItemId) (maxStack : ℕ) :
    List (Option ItemStack) → ℕ → List (Option ItemStack) × ℕ
  | [], rem => ([], rem)
  | s :: rest, rem =>
    if rem = 0 then (s :: rest, rem)
    else
      match s with
      | some st =>
        let r := fillEmpty item maxStack rest rem
        (some st :: r.1, r.2)
      | none =>
        let stackSize := min rem maxStack
        let r := fillEmpty item maxStack rest (rem - stackSize)
        (some ⟨item, stackSize⟩ :: r.1, r.2)

/-- `Inventory::add_items`: tops up existing same-item stacks, then
fills empty slots; returns the new inventory together with the number
of items actually placed (`qty - remaining` in the source). -/
def Inventory.add_items (inv : Inventory) (item_id : ItemId) (qty maxStack : ℕ) :
    Inventory × ℕ :=
  let r1 := fillExisting item_id maxStack inv.slots qty
  let r2 := fillEmpty item_id maxStack r1.1 r1.2
  (⟨r2.1⟩, qty - r2.2)

/-- `Inventory::is_full`: every slot holds a stack. -/
def Inventory.is_full (inv : Inventory) : Bool :=
  inv.slots.all fun s => s.isSome

/-- `Inventory::used_slots`: number of occupied slots. -/
def Inventory.used_slots (inv : Inventory) : ℕ :=
  (inv.slots.filter fun s => s.isSome).length

/-- `Inventory::count_item`: total quantity of one item. -/
def Inventory.count_item (inv : Inventory) (item_id : ItemId) : ℕ :=
  ((inv.slots.filterMap id).filter fun st => st.id = item_id).foldr
    (fun st n => st.qty + n) 0

/-- Total quantity held by a slot list, summed over all stacks. -/
def listQty (slots : List (Option ItemStack)) : ℕ :=
  (slots.filterMap id).foldr (fun st n => st.qty + n) 0

/-- Total quantity held by an inventory, summed over all slots (used to
account for what gathering deposits). -/
def Inventory.totalQty (inv : Inventory) : ℕ := listQty inv.slots

/-- Top-up capacity of the existing same-item stacks: how much the
first loop of `add_items` can absorb. -/
def stackSpace (item : ItemId) (m : ℕ) (slots : List (Option ItemStack)) : ℕ :=
  slots.foldr
    (fun s n =>
      (match s with
       | some st => if st.id = item ∧ st.qty < m then m - st.qty else 0
       | none => 0) + n)
    0

/-- Number of empty slots. -/
def emptyCount (slots : List (Option ItemStack)) : ℕ :=
  slots.countP fun s => s.isNone

/-- Total free space `add_items` can use for a given item and stack
bound: top-up space of existing stacks plus `max_stack` per empty slot. -/
def freeSpace (inv : Inventory) (item : ItemId) (m : ℕ) : ℕ :=
  stackSpace item m inv.slots + emptyCount inv.slots * m

/-- A slot respects the stack bound `m`. -/
def slotOk (m : ℕ) (s : Option ItemStack) : Bool :=
  match s with
  | none => true
  | some st => decide (st.qty ≤ m)

/-- `GatherState`: the gathering state machine's discrete state. -/
inductive GatherState where
  | Walking
  | Harvesting
  | Full
deriving DecidableEq

/-- `GatherTask`: target resource entity, repeating harvest timer
(elapsed time and period), and current state. -/
structure GatherTask where
  target : ℕ
  timerElapsed : ℚ
  timerDuration : ℚ
  state : GatherState
deriving DecidableEq

/-- `GatherTask::new`: period `1 / gather_rate`, state `Walking`,
fresh repeating timer. -/
def GatherTask.new (target : ℕ) (gather_rate : ℚ) : GatherTask :=
  ⟨target, 0, 1 / gather_rate, .Walking⟩

/-- `StuckTimer`: progress timer for stuck detection. -/
structure StuckTimer where
  timer : ℚ
  last_position : Vec3
  stuck_threshold : ℚ
deriving DecidableEq

/-- `StuckTimer::default`: zero timer, origin, 2-second threshold. -/
def StuckTimer.mkDefault : StuckTimer := ⟨0, ⟨0, 0, 0⟩, 2⟩

/-- `UnitCollision`: per-unit collision radius and the friendly-overlap
flag. -/
structure UnitCollision where
  radius : ℚ
  allow_friendly_overlap : Bool
deriving DecidableEq

/-! ## Destination arbitration (`move_units` pre-pass, `movement.rs` lines 28–101) -/

/-- Stable insertion into a sorted accumulator: the incoming element is
placed after every earlier element `y` with `le y x`. -/
def insertSorted (le : α → α → Bool) (x : α) : List α → List α
  | [] => [x]
  | y :: ys => if le y x then y :: insertSorted le x ys else x :: y :: ys

/-- A stable sort by a boolean "comes no later than" relation, modelling
Rust's stable `sort_by`.  For a given total preorder every stable sort
produces the same list, so the choice of algorithm is immaterial. -/
def stableSort (le : α → α → Bool) (l : List α) : List α :=
  l.foldl (fun acc x => insertSorted le x acc) []

/-- One moving unit as collected into `unit_data`: entity, current
position, requested `Destination::target`, and the `PrimaryTarget` flag. -/
structure MovUnit where
  id : ℕ
  pos : Vec3
  target : Vec3
  primary : Bool
deriving DecidableEq

/-- `target_pos`: the requested target at the unit's own height,
`Vec3::new(destination.target.x, current_pos.y, destination.target.z)`. -/
def MovUnit.targetPos (u : MovUnit) : Vec3 := ⟨u.target.x, u.pos.y, u.target.z⟩

/-- The `unit_data` comparator: primary-flagged units strictly first,
then ascending distance to target (distances compared via their
squares, which agrees with the source's comparison of `f32` distances). -/
def unitOrderLe (a b : MovUnit) : Bool :=
  match a.primary, b.primary with
  | true, false => true
  | false, true => false
  | _, _ => decide (dist2 a.pos a.targetPos ≤ dist2 b.pos b.targetPos)

/-- The availability test of the pre-pass: a cell is free when no
already-assigned position lies within distance `0.1` of it. -/
def cellFree (assigned : List Vec3) (c : Vec3) : Bool :=
  ! assigned.any fun o => distLt (dist2 o c) (1 / 10)

/-- `generate_formation_alternatives`: the 8 ring-1 and 12 ring-2 offsets
around the target, sorted by distance to the target and then by distance
to the unit's current position (stable). -/
def generate_formation_alternatives (target current_pos : Vec3) : List Vec3 :=
  let alternatives : List Vec3 :=
    [target + ⟨1, 0, 0⟩, target + ⟨-1, 0, 0⟩, target + ⟨0, 0, 1⟩, target + ⟨0, 0, -1⟩,
     target + ⟨1, 0, 1⟩, target + ⟨-1, 0, 1⟩, target + ⟨1, 0, -1⟩, target + ⟨-1, 0, -1⟩,
     target + ⟨2, 0, 0⟩, target + ⟨-2, 0, 0⟩, target + ⟨0, 0, 2⟩, target + ⟨0, 0, -2⟩,
     target + ⟨2, 0, 1⟩, target + ⟨1, 0, 2⟩, target + ⟨-2, 0, 1⟩, target + ⟨-1, 0, 2⟩,
     target + ⟨2, 0, -1⟩, target + ⟨1, 0, -2⟩, target + ⟨-2, 0, -1⟩, target + ⟨-1, 0, -2⟩]
  stableSort
    (fun a b =>
      if dist2 target a = dist2 target b then
        decide (dist2 current_pos a ≤ dist2 current_pos b)
      else decide (dist2 target a ≤ dist2 target b))
    alternatives

/-- One arbitration outcome: the unit, its final cell and whether the
cell was genuinely claimed (pushed onto `assigned_destinations`) or is
the unreserved stay-put fallback. -/
structure ArbEntry where
  unit : MovUnit
  cell : Vec3
  claimed : Bool
deriving DecidableEq

/-- The assignment loop of the pre-pass: claim the snapped target if
free, else the first free formation alternative, else fall back to the
unit's own current grid cell — which the source does *not* push onto
`assigned_destinations`. -/
def assignLoop : List MovUnit → List Vec3 → List ArbEntry
  | [], _ => []
  | u :: rest, assigned =>
    let gridTarget := Movement.snap_to_grid u.targetPos
    if cellFree assigned gridTarget then
      ⟨u, gridTarget, true⟩ :: assignLoop rest (assigned ++ [gridTarget])
    else
      match (generate_formation_alternatives gridTarget u.pos).find?
          (fun c => cellFree assigned c) with
      | some alt => ⟨u, alt, true⟩ :: assignLoop rest (assigned ++ [alt])
      | none => ⟨u, Movement.snap_to_grid u.pos, false⟩ :: assignLoop rest assigned

/-- The whole pre-pass of `move_units`: occupied cells from the
stationary units' snapped positions, moving units sorted by the priority
comparator, then the assignment loop. -/
def arbitrate (stationary : List Vec3) (movers : List MovUnit) : List ArbEntry :=
  let occupied := stationary.map Movement.snap_to_grid
  assignLoop (stableSort unitOrderLe movers) occupied

/-! ## Movement integrator (`move_units` per-unit body, lines 118–310) -/

/-- A static obstacle: centre and `CollisionSize` (already defaulted to
`(0.8, 0.5, 0.8)` when the component is absent). -/
structure Obstacle where
  center : Vec3
  size : Vec3
deriving DecidableEq

/-- `obstacle_radius = (size.x + size.z) * 0.25`. -/
def Obstacle.radius (ob : Obstacle) : ℚ := (ob.size.x + ob.size.z) * (1 / 4)

/-- `Vec3::normalize_or_zero`, parameterised by the square-root kernel
`sqrtFn` supplied by the floating-point hardware: the zero vector stays
zero, any other vector is scaled by the reciprocal of its length. -/
def normalize_or_zero (sqrtFn : ℚ → ℚ) (v : Vec3) : Vec3 :=
  if norm2 v = 0 then ⟨0, 0, 0⟩ else v * (1 / sqrtFn (norm2 v))

/-- `move_speed = 2.0` units per second. -/
def move_speed : ℚ := 2

/-- `arrival_threshold = 0.2`. -/
def arrival_threshold : ℚ := 1 / 5

/-- Result of one unit's integrator step: new translation, whether the
`Moving` component is still attached, the `Destination` and `StuckTimer`
components, and the travel direction the unit was rotated to face
(`None` keeps the previous orientation). -/
structure MoveResult where
  pos : Vec3
  moving : Bool
  dest : Option Vec3
  stuck : Option StuckTimer
  facing : Option Vec3
deriving DecidableEq

/-- The static-obstacle branch (lines 193–231): push out of the first
colliding obstacle, or slide perpendicular to it when the push moves the
unit away from its target, or stop when the slide also collides. -/
def resolveObstacle (sqrtFn : ℚ → ℚ) (cur desired targetH : Vec3)
    (moveDistance unitRadius : ℚ) (ob : Obstacle) : Vec3 :=
  let pushDirection := normalize_or_zero sqrtFn (desired - ob.center)
  let safeDistance := unitRadius + ob.radius + 1 / 10
  let fp := ob.center + pushDirection * safeDistance
  if dist2 fp targetH > dist2 cur targetH then
    let toObstacle := normalize_or_zero sqrtFn (ob.center - cur)
    let perpendicular : Vec3 := ⟨-toObstacle.z, 0, toObstacle.x⟩
    let s1 := cur + perpendicular * moveDistance
    let s2 := cur - perpendicular * moveDistance
    let chosen := if dist2 s1 targetH < dist2 s2 targetH then s1 else s2
    if distLt (dist2 chosen ob.center) (unitRadius + ob.radius) then cur else chosen
  else fp

/-- The friendly-push accumulation loop (lines 243–257): sum the scaled
push-away vectors of every other unit overlapping the candidate
position, counting contributors. -/
def friendlyPush (sqrtFn : ℚ → ℚ) (allUnits : List (ℕ × Vec3 × ℚ)) (selfId : ℕ)
    (unitRadius : ℚ) (fp : Vec3) : Vec3 × ℕ :=
  allUnits.foldl
    (fun acc other =>
      if other.1 ≠ selfId then
        let d2 := dist2 fp other.2.1
        let combined := unitRadius + other.2.2
        if distLt d2 combined ∧ distLe d2 (1 / 100) = false then
          let pushDir := normalize_or_zero sqrtFn (fp - other.2.1)
          let overlap := combined - sqrtFn d2
          (acc.1 + pushDir * overlap * ((3 : ℚ) / 10), acc.2 + 1)
        else acc
      else acc)
    (⟨0, 0, 0⟩, 0)

/-- The friendly-collision response (lines 259–271): average the pushes,
apply, and clamp so the displacement never exceeds half the unit radius
(the source clamps with `avg_push.normalize()`; a nonzero average is the
only way the clamp can trigger in a real execution). -/
def applyFriendly (sqrtFn : ℚ → ℚ) (allUnits : List (ℕ × Vec3 × ℚ)) (selfId : ℕ)
    (unitRadius : ℚ) (desired fp1 : Vec3) : Vec3 :=
  let p := friendlyPush sqrtFn allUnits selfId unitRadius fp1
  if 0 < p.2 then
    let avg := p.1 * (1 / (p.2 : ℚ))
    let fp := fp1 + avg
    let maxPush := unitRadius * (1 / 2)
    if sqrtFn (norm2 avg) > maxPush then desired + normalize_or_zero sqrtFn avg * maxPush
    else fp
  else fp1

/-- One unit's step of the movement integrator, `move_units` lines
118–310.  `finalDest` is the arbitrated final destination for the unit
(the pre-pass map lookup, defaulted to the snapped original target);
`allUnits` holds every unit's `(entity, position, radius)` with the
stationary placeholder entity id included. -/
def moveUnitStep (sqrtFn : ℚ → ℚ) (dt : ℚ) (obstacles : List Obstacle)
    (allUnits : List (ℕ × Vec3 × ℚ)) (selfId : ℕ)
    (collision : Option UnitCollision) (cur destTarget finalDest : Vec3)
    (stuck : Option StuckTimer) (facing : Option Vec3) : MoveResult :=
  let targetH : Vec3 := ⟨finalDest.x, cur.y, finalDest.z⟩
  let direction := normalize_or_zero sqrtFn (targetH - cur)
  if distLe (dist2 cur targetH) arrival_threshold then
    ⟨targetH, false, none, none, facing⟩
  else
    match stuck with
    | none =>
      ⟨cur, true, some destTarget,
       some { StuckTimer.mkDefault with last_position := cur }, facing⟩
    | some st =>
      let moveDistance := move_speed * dt
      let desired := cur + direction * moveDistance
      let unitRadius := (collision.map UnitCollision.radius).getD (3 / 10)
      let fp1 :=
        match obstacles.find?
            (fun ob => distLt (dist2 desired ob.center) (unitRadius + ob.radius)) with
        | some ob => resolveObstacle sqrtFn cur desired targetH moveDistance unitRadius ob
        | none => desired
      let fp2 :=
        match collision with
        | some c =>
          if c.allow_friendly_overlap then
            applyFriendly sqrtFn allUnits selfId unitRadius desired fp1
          else fp1
        | none => fp1
      let newFacing :=
        if (1 / 1000 : ℚ) ^ 2 < norm2 direction then some direction else facing
      if distLe (dist2 cur fp2) (1 / 100) then
        let t' := st.timer + dt
        if t' > st.stuck_threshold then ⟨cur, false, none, none, facing⟩
        else ⟨fp2, true, some destTarget, some { st with timer := t' }, newFacing⟩
      else ⟨fp2, true, some destTarget,
            some { st with timer := 0, last_position := fp2 }, newFacing⟩

/-! ## Gathering (`src/systems/gathering.rs`) -/

/-- A unit as seen by the gathering systems: position, the optional
`Moving` / `Destination` / `GatherTask` components, and the inventory. -/
structure GUnit where
  pos : Vec3
  moving : Bool
  dest : Option Vec3
  task : Option GatherTask
  inventory : Inventory
deriving DecidableEq

/-- One `Timer::tick` of a repeating Bevy timer with period `duration`:
returns the new elapsed time and `just_finished()`. -/
def timerTick (elapsed duration dt : ℚ) : ℚ × Bool :=
  let total := elapsed + dt
  if duration ≤ total then (total - duration * (⌊total / duration⌋ : ℚ), true)
  else (total, false)

/-- Result of one unit's pass through the gathering state machine:
updated unit and node, the quantity the harvest tick requested from
`add_items` (0 when no add was attempted), and the quantity actually
added to the inventory. -/
structure GatherStepResult where
  unit : GUnit
  node : ResourceNode
  requested : ℕ
  added : ℕ
deriving DecidableEq

/-- The per-unit body of `process_gathering_state_machine` (lines
104–196) for a resolved resource node: the Walking/Harvesting/Full
match, including the harvest tick with the `remaining as u16` cast
(modelled as `% 65536`) and the `u32` saturating decrement (exact on
`ℕ`). -/
def gatherUnitStep (dt : ℚ) (node : ResourceNode) (rpos : Vec3) (u : GUnit) :
    GatherStepResult :=
  match u.task with
  | none => ⟨u, node, 0, 0⟩
  | some t =>
    let d2 := dist2 u.pos rpos
    match t.state with
    | .Walking =>
      if distLe d2 node.gather_radius then
        ⟨{ u with task := some { t with state := .Harvesting }, moving := false },
         node, 0, 0⟩
      else ⟨u, node, 0, 0⟩
    | .Harvesting =>
      if distLe d2 node.gather_radius = false then
        ⟨{ u with task := some { t with state := .Walking }, moving := true },
         node, 0, 0⟩
      else if u.inventory.is_full then
        ⟨{ u with task := some { t with state := .Full } }, node, 0, 0⟩
      else if node.remaining = 0 then
        ⟨{ u with task := none }, node, 0, 0⟩
      else
        let tick := timerTick t.timerElapsed t.timerDuration dt
        let t' := { t with timerElapsed := tick.1 }
        if tick.2 then
          let gatherAmount := min 1 (node.remaining % 65536)
          if 0 < gatherAmount ∧ 0 < node.remaining then
            let itemId := ItemId.ofResourceKind node.kind
            let r := u.inventory.add_items itemId gatherAmount itemId.max_stack_size
            if 0 < r.2 then
              ⟨{ u with task := some t', inventory := r.1 },
               { node with remaining := node.remaining - r.2 }, gatherAmount, r.2⟩
            else
              ⟨{ u with task := some t', inventory := r.1 }, node, gatherAmount, 0⟩
          else ⟨{ u with task := some t' }, node, 0, 0⟩
        else ⟨{ u with task := some t' }, node, 0, 0⟩
    | .Full => ⟨u, node, 0, 0⟩

/-- One unit's pass through the gathering system including the
group-level resolution of the target resource entity (lines 94–101):
when the resource no longer resolves, only the `GatherTask` component is
removed. -/
def gatherStepChecked (dt : ℚ) (resOpt : Option (ResourceNode × Vec3)) (u : GUnit) :
    GUnit × Option ResourceNode :=
  match resOpt with
  | none => ({ u with task := none }, none)
  | some nr =>
    let r := gatherUnitStep dt nr.1 nr.2 u
    (r.unit, some r.node)

/-- Sequential processing of every gatherer of one resolved resource
node within a tick, threading the shared `remaining` counter; returns
the updated units, the node, and the total quantity deposited into
inventories. -/
def processUnits (dt : ℚ) (rpos : Vec3) :
    List GUnit → ResourceNode → List GUnit × ResourceNode × ℕ
  | [], node => ([], node, 0)
  | u :: rest, node =>
    let r := gatherUnitStep dt node rpos u
    let rr := processUnits dt rpos rest r.node
    (r.unit :: rr.1, rr.2.1, r.added + rr.2.2)

/-- One gathering-system tick for one resource entity and its gatherers,
`process_gathering_state_machine` lines 94–197: either the group-wide
task removal (resource gone) or the sequential per-unit processing. -/
def processResourceTick (dt : ℚ) (resOpt : Option (ResourceNode × Vec3))
    (units : List GUnit) : List GUnit × Option ResourceNode × ℕ :=
  match resOpt with
  | none => (units.map fun u => { u with task := none }, none, 0)
  | some nr =>
    let r := processUnits dt nr.2 units nr.1
    (r.1, some r.2.1, r.2.2)

/-- Iterated gathering ticks for one resolved node: `n` frames of the
gathering system, returning the final node, units, and the total
quantity deposited into inventories over the whole run. -/
def gatherTicks (dt : ℚ) (rpos : Vec3) :
    ℕ → ResourceNode → List GUnit → ResourceNode × List GUnit × ℕ
  | 0, node, units => (node, units, 0)
  | n + 1, node, units =>
    let r := processUnits dt rpos units node
    let rr := gatherTicks dt rpos n r.2.1 r.1
    (rr.1, rr.2.1, r.2.2 + rr.2.2)

/-- The world visible to one `GatherEvent` in `issue_gather_task`: the
resolution of the target resource entity, whether the unit entity
resolves, and the unit's components. -/
structure IssueWorld where
  resource : Option (ResourceNode × Vec3)
  unitExists : Bool
  inventory : Inventory
  moving : Bool
  dest : Option Vec3
  task : Option GatherTask
deriving DecidableEq

/-- `issue_gather_task` for one event (lines 13–60): drop the order when
the resource or unit does not resolve or the inventory is full;
otherwise replace any movement/gather state with a fresh Walking task
and a grid-snapped destination at the resource. -/
def issue_gather_task (resourceId : ℕ) (w : IssueWorld) : IssueWorld :=
  match w.resource with
  | none => w
  | some nr =>
    if w.unitExists = false then w
    else if w.inventory.is_full then w
    else
      { w with
        moving := true
        task := some (GatherTask.new resourceId nr.1.gather_rate)
        dest := some (Gathering.snap_to_grid nr.2) }

/-! ## Helper lemmas: the two loops of `add_items` -/

lemma dist2_self (a : Vec3) : dist2 a a = 0 := by
  simp [dist2]

lemma stackSpace_cons (item : ItemId) (m : ℕ) (s : Option ItemStack)
    (rest : List (Option ItemStack)) :
    stackSpace item m (s :: rest) =
      (match s with
       | some st => if st.id = item ∧ st.qty < m then m - st.qty else 0
       | none => 0) + stackSpace item m rest := by
  simp [stackSpace]

lemma fillExisting_snd (item : ItemId) (m : ℕ) (slots : List (Option ItemStack)) :
    ∀ rem, (fillExisting item m slots rem).2 =
      rem - min rem (stackSpace item m slots) := by
  induction slots with
  | nil => intro rem; simp [fillExisting, stackSpace]
  | cons s rest ih =>
    intro rem
    by_cases h0 : rem = 0
    · simp [fillExisting, h0]
    · cases s with
      | none => simp [fillExisting, h0, ih, stackSpace_cons]
      | some st =>
        by_cases hc : st.id = item ∧ st.qty < m
        · simp only [fillExisting, if_neg h0, stackSpace_cons]
          rw [if_pos hc, if_pos hc]
          simp only [ih]
          omega
        · simp only [fillExisting, if_neg h0, stackSpace_cons]
          rw [if_neg hc, if_neg hc]
          simp [ih]

lemma fillEmpty_snd (item : ItemId) (m : ℕ) (slots : List (Option ItemStack)) :
    ∀ rem, (fillEmpty item m slots rem).2 =
      rem - min rem (emptyCount slots * m) := by
  induction slots with
  | nil => intro rem; simp [fillEmpty, emptyCount]
  | cons s rest ih =>
    intro rem
    by_cases h0 : rem = 0
    · simp [fillEmpty, h0]
    · cases s with
      | none =>
        simp only [fillEmpty, if_neg h0, ih]
        have he : emptyCount (none :: rest) = emptyCount rest + 1 := by
          simp [emptyCount, List.countP_cons]
        rw [he, Nat.add_mul, one_mul]
        omega
      | some st =>
        simp only [fillEmpty, if_neg h0, ih]
        have he : emptyCount (some st :: rest) = emptyCount rest := by
          simp [emptyCount, List.countP_cons]
        rw [he]

lemma listQty_cons_some (st : ItemStack) (rest : List (Option ItemStack)) :
    listQty (some st :: rest) = st.qty + listQty rest := by
  simp [listQty]

lemma listQty_cons_none (rest : List (Option ItemStack)) :
    listQty (none :: rest) = listQty rest := by
  simp [listQty]

lemma fillExisting_qty (item : ItemId) (m : ℕ) (slots : List (Option ItemStack)) :
    ∀ rem, listQty (fillExisting item m slots rem).1 + (fillExisting item m slots rem).2 =
      listQty slots + rem := by
  induction slots with
  | nil => intro rem; simp [fillExisting]
  | cons s rest ih =>
    intro rem
    by_cases h0 : rem = 0
    · simp [fillExisting, h0]
    · cases s with
      | none =>
        simp only [fillExisting, if_neg h0]
        simpa [listQty] using ih rem
      | some st =>
        by_cases hc : st.id = item ∧ st.qty < m
        · simp only [fillExisting, if_neg h0]
          rw [if_pos hc]
          have := ih (rem - min (m - st.qty) rem)
          simp only [listQty_cons_some] at this ⊢
          omega
        · simp only [fillExisting, if_neg h0]
          rw [if_neg hc]
          have := ih rem
          simp only [listQty_cons_some] at this ⊢
          omega

lemma fillEmpty_qty (item : ItemId) (m : ℕ) (slots : List (Option ItemStack)) :
    ∀ rem, listQty (fillEmpty item m slots rem).1 + (fillEmpty item m slots rem).2 =
      listQty slots + rem := by
  induction slots with
  | nil => intro rem; simp [fillEmpty]
  | cons s rest ih =>
    intro rem
    by_cases h0 : rem = 0
    · simp [fillEmpty, h0]
    · cases s with
      | some st =>
        simp only [fillEmpty, if_neg h0]
        have := ih rem
        simp only [listQty_cons_some] at this ⊢
        omega
      | none =>
        simp only [fillEmpty, if_neg h0]
        have := ih (rem - min rem m)
        simp only [listQty_cons_some, listQty_cons_none] at this ⊢
        omega

/-- Pointwise effect of the first loop: a slot is unchanged, or is an
occupied slot rewritten within the stack bound; occupancy never changes. -/
lemma fillExisting_forall2 (item : ItemId) (m : ℕ) (slots : List (Option ItemStack)) :
    ∀ rem, List.Forall₂
      (fun s s' => s'.isSome = s.isSome ∧
        (s' = s ∨ ∃ st', s' = some st' ∧ st'.qty ≤ m))
      slots (fillExisting item m slots rem).1 := by
  induction slots with
  | nil => intro rem; simp [fillExisting]
  | cons s rest ih =>
    intro rem
    by_cases h0 : rem = 0
    · simp only [fillExisting, if_pos h0]
      exact List.forall₂_same.mpr fun x _ => ⟨rfl, Or.inl rfl⟩
    · cases s with
      | none =>
        simp only [fillExisting, if_neg h0]
        exact List.Forall₂.cons (by simp) (ih rem)
      | some st =>
        by_cases hc : st.id = item ∧ st.qty < m
        · simp only [fillExisting, if_neg h0]
          rw [if_pos hc]
          refine List.Forall₂.cons ⟨rfl, Or.inr ⟨_, rfl, ?_⟩⟩ (ih _)
          show st.qty + min (m - st.qty) rem ≤ m
          obtain ⟨hc1, hc2⟩ := hc
          omega
        · simp only [fillExisting, if_neg h0]
          rw [if_neg hc]
          exact List.Forall₂.cons (by simp) (ih rem)

/-- Pointwise effect of the second loop: a slot is unchanged, or is a
previously empty slot filled with a stack within the bound. -/
lemma fillEmpty_forall2 (item : ItemId) (m : ℕ) (slots : List (Option ItemStack)) :
    ∀ rem, List.Forall₂
      (fun s s' => s' = s ∨ (s = none ∧ ∃ st', s' = some st' ∧ st'.qty ≤ m))
      slots (fillEmpty item m slots rem).1 := by
  induction slots with
  | nil => intro rem; simp [fillEmpty]
  | cons s rest ih =>
    intro rem
    by_cases h0 : rem = 0
    · simp only [fillEmpty, if_pos h0]
      exact List.forall₂_same.mpr fun x _ => Or.inl rfl
    · cases s with
      | some st =>
        simp only [fillEmpty, if_neg h0]
        exact List.Forall₂.cons (Or.inl rfl) (ih rem)
      | none =>
        simp only [fillEmpty, if_neg h0]
        refine List.Forall₂.cons (Or.inr ⟨rfl, _, rfl, ?_⟩) (ih _)
        show min rem m ≤ m
        omega

lemma fillEmpty_zero (item : ItemId) (m : ℕ) (slots : List (Option ItemStack)) :
    fillEmpty item m slots 0 = (slots, 0) := by
  cases slots <;> simp [fillEmpty]

lemma emptyCount_eq_of_isSome_eq :
    ∀ {l l' : List (Option ItemStack)},
      List.Forall₂ (fun s s' => s'.isSome = s.isSome) l l' →
      emptyCount l' = emptyCount l := by
  intro l l' h
  induction h with
  | nil => rfl
  | cons hrel _ ih =>
    rename_i a b l1 l2 _
    cases a <;> cases b <;> simp_all [emptyCount, List.countP_cons]

lemma usedCount_eq_of_isSome_eq :
    ∀ {l l' : List (Option ItemStack)},
      List.Forall₂ (fun s s' => s'.isSome = s.isSome) l l' →
      (l'.filter fun s => s.isSome).length = (l.filter fun s => s.isSome).length := by
  intro l l' h
  induction h with
  | nil => rfl
  | cons hrel _ ih =>
    rename_i a b l1 l2 _
    cases a <;> cases b <;> simp_all [List.filter_cons]

/-- Composition of the two loops' pointwise effects. -/
lemma slots_rel_compose {m : ℕ} :
    ∀ {l1 l2 l3 : List (Option ItemStack)},
      List.Forall₂
        (fun s s' => s'.isSome = s.isSome ∧ (s' = s ∨ ∃ st', s' = some st' ∧ st'.qty ≤ m))
        l1 l2 →
      List.Forall₂
        (fun s s' => s' = s ∨ (s = none ∧ ∃ st', s' = some st' ∧ st'.qty ≤ m)) l2 l3 →
      List.Forall₂ (fun s s' => s' = s ∨ ∃ st', s' = some st' ∧ st'.qty ≤ m) l1 l3 := by
  intro l1 l2 l3 h1 h2
  induction h1 generalizing l3 with
  | nil => cases h2; exact .nil
  | cons hrel htail ih =>
    cases h2 with
    | cons hrel2 htail2 =>
      refine List.Forall₂.cons ?_ (ih htail2)
      rcases hrel2 with h | ⟨hnone, st', hst', hq⟩
      · subst h
        exact hrel.2
      · exact Or.inr ⟨st', hst', hq⟩

lemma add_items_added (inv : Inventory) (item : ItemId) (qty m : ℕ) :
    (inv.add_items item qty m).2 = min qty (freeSpace inv item m) := by
  have h1 := fillExisting_snd item m inv.slots qty
  have h2 := fillEmpty_snd item m (fillExisting item m inv.slots qty).1
    (fillExisting item m inv.slots qty).2
  have he : emptyCount (fillExisting item m inv.slots qty).1 = emptyCount inv.slots :=
    emptyCount_eq_of_isSome_eq ((fillExisting_forall2 item m inv.slots qty).imp fun _ _ h => h.1)
  simp only [Inventory.add_items, freeSpace]
  rw [h2, he, h1]
  omega

lemma add_items_le (inv : Inventory) (item : ItemId) (qty m : ℕ) :
    (inv.add_items item qty m).2 ≤ qty := by
  simp only [Inventory.add_items]
  omega

lemma add_items_forall2 (inv : Inventory) (item : ItemId) (qty m : ℕ) :
    List.Forall₂ (fun s s' => s' = s ∨ ∃ st', s' = some st' ∧ st'.qty ≤ m)
      inv.slots (inv.add_items item qty m).1.slots :=
  slots_rel_compose (fillExisting_forall2 item m inv.slots qty)
    (fillEmpty_forall2 item m (fillExisting item m inv.slots qty).1
      (fillExisting item m inv.slots qty).2)

lemma add_items_length (inv : Inventory) (item : ItemId) (qty m : ℕ) :
    (inv.add_items item qty m).1.slots.length = inv.slots.length :=
  ((add_items_forall2 inv item qty m).length_eq).symm

lemma fill_snd_le_fst (item : ItemId) (m : ℕ) (slots : List (Option ItemStack)) (rem : ℕ) :
    (fillExisting item m slots rem).2 ≤ rem := by
  rw [fillExisting_snd]
  omega

lemma add_items_totalQty (inv : Inventory) (item : ItemId) (qty m : ℕ) :
    (inv.add_items item qty m).1.totalQty =
      inv.totalQty + (inv.add_items item qty m).2 := by
  have h1 := fillExisting_qty item m inv.slots qty
  have h2 := fillEmpty_qty item m (fillExisting item m inv.slots qty).1
    (fillExisting item m inv.slots qty).2
  have h3 := fill_snd_le_fst item m inv.slots qty
  have h4 := fillEmpty_snd item m (fillExisting item m inv.slots qty).1
    (fillExisting item m inv.slots qty).2
  simp only [Inventory.add_items, Inventory.totalQty]
  omega

lemma add_items_used_of_stackSpace (inv : Inventory) (item : ItemId) (qty m : ℕ)
    (h : qty ≤ stackSpace item m inv.slots) :
    (inv.add_items item qty m).1.used_slots = inv.used_slots := by
  have h1 := fillExisting_snd item m inv.slots qty
  have hz : (fillExisting item m inv.slots qty).2 = 0 := by
    rw [h1]
    omega
  simp only [Inventory.add_items, Inventory.used_slots, hz, fillEmpty_zero]
  exact usedCount_eq_of_isSome_eq
    ((fillExisting_forall2 item m inv.slots qty).imp fun _ _ h => h.1)

lemma slotOk_all_of_forall2 {m : ℕ} :
    ∀ {l l' : List (Option ItemStack)},
      List.Forall₂ (fun s s' => s' = s ∨ ∃ st', s' = some st' ∧ st'.qty ≤ m) l l' →
      (∀ s ∈ l, slotOk m s = true) → ∀ s' ∈ l', slotOk m s' = true := by
  intro l l' h
  induction h with
  | nil => intro _ s' hs'; cases hs'
  | cons hrel htail ih =>
    intro hok s' hs'
    rcases List.mem_cons.mp hs' with h' | h'
    · subst h'
      rcases hrel with h' | ⟨st', hst', hq⟩
      · subst h'
        exact hok _ (List.mem_cons_self _ _)
      · subst hst'
        simpa [slotOk] using hq
    · exact ih (fun s hs => hok s (List.mem_cons_of_mem _ hs)) s' h'

/-! ## Claim theorems -/

/-- Claim C4: for every inventory state, item id, requested quantity and
max-stack bound, `add_items` places exactly `min qty freeSpace` items
(so 0 when no space), increasing the held total by exactly that amount;
it never changes the number of slots (the fixed capacity), every slot it
rewrites stays within `max_stack`, and when the existing same-item
stacks alone can absorb the request no empty slot is consumed (tops up
existing stacks first). -/
theorem C4_add_items_spec (inv : Inventory) (item : ItemId) (qty m : ℕ) :
    (inv.add_items item qty m).2 = min qty (freeSpace inv item m) ∧
    (inv.add_items item qty m).1.slots.length = inv.slots.length ∧
    (inv.add_items item qty m).1.totalQty = inv.totalQty + (inv.add_items item qty m).2 ∧
    List.Forall₂ (fun s s' => s' = s ∨ ∃ st', s' = some st' ∧ st'.qty ≤ m)
      inv.slots (inv.add_items item qty m).1.slots ∧
    (qty ≤ stackSpace item m inv.slots →
      (inv.add_items item qty m).1.used_slots = inv.used_slots) :=
  ⟨add_items_added inv item qty m, add_items_length inv item qty m,
   add_items_totalQty inv item qty m, add_items_forall2 inv item qty m,
   fun h => add_items_used_of_stackSpace inv item qty m h⟩

/-- Concrete instance for C4: an inventory holding one partial
`CopperOre` stack absorbs one more ore into that stack (no new slot). -/
def c4Inv : Inventory := ⟨some ⟨.CopperOre, 1⟩ :: List.replicate 27 none⟩

/-- Witness for C4 at a concrete input. -/
theorem C4_witness :
    (c4Inv.add_items .CopperOre 1 2).2 = min 1 (freeSpace c4Inv .CopperOre 2) ∧
    1 ≤ stackSpace .CopperOre 2 c4Inv.slots ∧
    (c4Inv.add_items .CopperOre 1 2).1.used_slots = c4Inv.used_slots :=
  ⟨(C4_add_items_spec c4Inv .CopperOre 1 2).1, by decide,
   (C4_add_items_spec c4Inv .CopperOre 1 2).2.2.2.2 (by decide)⟩

/-- An inventory whose first slot already violates the stack bound 1:
`add_items` never touches it, so the claimed invariant fails for
arbitrary starting inventories. -/
def c5Inv : Inventory := ⟨some ⟨.CopperOre, 5⟩ :: List.replicate 27 none⟩

/-- Claim C5 counterexample: starting from an arbitrary inventory, a
sequence of `add_items` calls does *not* guarantee every slot respects
the supplied `max_stack`: a pre-existing over-full stack (quantity 5
with `max_stack = 1`) is left in place by the call, and 5 > 1. -/
theorem C5_counterexample :
    c5Inv.slots.length = 28 ∧
    ([((ItemId.CopperOre : ItemId), (1 : ℕ))].foldl
        (fun acc c => (acc.add_items c.1 c.2 1).1) c5Inv).slots.head? =
      some (some ⟨.CopperOre, 5⟩) ∧
    ¬ (5 : ℕ) ≤ 1 := by
  decide

/-- Claim C5 (amended): for every sequence of `add_items` calls with a
fixed `max_stack`, starting from an inventory of 28 slots *all of which
already respect the stack bound* (in particular the empty inventory),
afterwards `used_slots() ≤ 28`, no slot's quantity exceeds `max_stack`,
and `is_full()` is true iff every slot holds a stack. -/
theorem C5_inventory_invariant (calls : List (ItemId × ℕ)) (m : ℕ) (inv : Inventory)
    (hlen : inv.slots.length = 28)
    (hok : ∀ s ∈ inv.slots, slotOk m s = true) :
    (calls.foldl (fun acc c => (acc.add_items c.1 c.2 m).1) inv).used_slots ≤ 28 ∧
    (∀ s ∈ (calls.foldl (fun acc c => (acc.add_items c.1 c.2 m).1) inv).slots,
      slotOk m s = true) ∧
    ((calls.foldl (fun acc c => (acc.add_items c.1 c.2 m).1) inv).is_full = true ↔
      ∀ s ∈ (calls.foldl (fun acc c => (acc.add_items c.1 c.2 m).1) inv).slots,
        s.isSome = true) := by
  induction calls generalizing inv with
  | nil =>
    refine ⟨?_, hok, ?_⟩
    · simpa [Inventory.used_slots, hlen] using
        List.length_filter_le (fun s => s.isSome) inv.slots
    · simp [Inventory.is_full, List.all_eq_true]
  | cons c rest ih =>
    simp only [List.foldl_cons]
    exact ih ((inv.add_items c.1 c.2 m).1)
      (by rw [add_items_length]; exact hlen)
      (slotOk_all_of_forall2 (add_items_forall2 inv c.1 c.2 m) hok)

/-- Witness for C5 at a concrete input: one call adding a copper ore to
the empty inventory. -/
theorem C5_witness :
    Inventory.new.slots.length = 28 ∧
    (∀ s ∈ Inventory.new.slots, slotOk 1 s = true) ∧
    ([((ItemId.CopperOre : ItemId), (1 : ℕ))].foldl
        (fun acc c => (acc.add_items c.1 c.2 1).1) Inventory.new).used_slots ≤ 28 :=
  ⟨by decide, by decide,
   (C5_inventory_invariant [(ItemId.CopperOre, 1)] 1 Inventory.new
      (by decide) (by decide)).1⟩

/-! ## Gathering conservation lemmas -/

/-- Total inventory contents of a list of units. -/
def sumQty (units : List GUnit) : ℕ :=
  units.foldr (fun u n => u.inventory.totalQty + n) 0

@[simp] lemma sumQty_nil : sumQty [] = 0 := rfl

@[simp] lemma sumQty_cons (u : GUnit) (rest : List GUnit) :
    sumQty (u :: rest) = u.inventory.totalQty + sumQty rest := rfl

/-- One gathering step moves matter, never creates it: the node loses
exactly what the unit's inventory gains, and at most one item moves. -/
lemma gatherUnitStep_conservation (dt : ℚ) (node : ResourceNode) (rpos : Vec3) (u : GUnit) :
    (gatherUnitStep dt node rpos u).node.remaining + (gatherUnitStep dt node rpos u).added
        = node.remaining ∧
    (gatherUnitStep dt node rpos u).added ≤ 1 ∧
    (gatherUnitStep dt node rpos u).unit.inventory.totalQty
        = u.inventory.totalQty + (gatherUnitStep dt node rpos u).added := by
  have hle := add_items_le u.inventory (ItemId.ofResourceKind node.kind)
    (min 1 (node.remaining % 65536)) (ItemId.ofResourceKind node.kind).max_stack_size
  have htot := add_items_totalQty u.inventory (ItemId.ofResourceKind node.kind)
    (min 1 (node.remaining % 65536)) (ItemId.ofResourceKind node.kind).max_stack_size
  have hmod : node.remaining % 65536 ≤ node.remaining := Nat.mod_le _ _
  simp only [gatherUnitStep]
  split
  · simp
  · split
    · split <;> simp
    · split
      · simp
      · split
        · simp
        · split
          · simp
          · split
            · split
              · split
                · refine ⟨?_, ?_, ?_⟩ <;> simp_all
                  omega
                · refine ⟨?_, ?_, ?_⟩ <;> simp_all
              · simp
            · simp
    · simp

/-- Sequential processing of one node's gatherers conserves matter. -/
lemma processUnits_conservation (dt : ℚ) (rpos : Vec3) :
    ∀ (units : List GUnit) (node : ResourceNode),
      (processUnits dt rpos units node).2.1.remaining + (processUnits dt rpos units node).2.2
          = node.remaining ∧
      sumQty (processUnits dt rpos units node).1
          = sumQty units + (processUnits dt rpos units node).2.2 := by
  intro units
  induction units with
  | nil => intro node; simp [processUnits]
  | cons u rest ih =>
    intro node
    have hstep := gatherUnitStep_conservation dt node rpos u
    have htail := ih (gatherUnitStep dt node rpos u).node
    simp only [processUnits, sumQty_cons]
    omega

/-- Iterated gathering ticks conserve matter. -/
lemma gatherTicks_conservation (dt : ℚ) (rpos : Vec3) :
    ∀ (n : ℕ) (node : ResourceNode) (units : List GUnit),
      (gatherTicks dt rpos n node units).1.remaining + (gatherTicks dt rpos n node units).2.2
          = node.remaining ∧
      sumQty (gatherTicks dt rpos n node units).2.1
          = sumQty units + (gatherTicks dt rpos n node units).2.2 := by
  intro n
  induction n with
  | zero => intro node units; simp [gatherTicks]
  | succ n ih =>
    intro node units
    have hstep := processUnits_conservation dt rpos units node
    have htail := ih (processUnits dt rpos units node).2.1 (processUnits dt rpos units node).1
    simp only [gatherTicks]
    omega

/-- Claim C3: over any number of gathering-system ticks, a resource
node's `remaining` counter is non-increasing (and, being a `ℕ` image of
a `u32` updated by saturating subtraction, never negative); moreover
`remaining` decreases by exactly the total quantity deposited into the
harvesters' inventories, so the total deposited never exceeds the node's
initial `remaining`. -/
theorem C3_depletion_monotone (dt : ℚ) (rpos : Vec3) (n : ℕ) (node : ResourceNode)
    (units : List GUnit) :
    (gatherTicks dt rpos n node units).1.remaining ≤ node.remaining ∧
    (gatherTicks dt rpos n node units).1.remaining + (gatherTicks dt rpos n node units).2.2
        = node.remaining ∧
    sumQty (gatherTicks dt rpos n node units).2.1
        = sumQty units + (gatherTicks dt rpos n node units).2.2 ∧
    (gatherTicks dt rpos n node units).2.2 ≤ node.remaining := by
  have h := gatherTicks_conservation dt rpos n node units
  exact ⟨by omega, h.1, h.2, by omega⟩

/-- Claim C10: when a gather task's target resource entity no longer
resolves, the gathering system removes only the `GatherTask` component
from each unit of the group: position, `Moving`, `Destination` and the
inventory are untouched, so a unit that was walking keeps walking to its
last destination. -/
theorem C10_invalid_resource_removes_only_task (dt : ℚ) (units : List GUnit) :
    List.Forall₂
      (fun u u' => u'.task = none ∧ u'.pos = u.pos ∧ u'.moving = u.moving ∧
        u'.dest = u.dest ∧ u'.inventory = u.inventory)
      units (processResourceTick dt none units).1 := by
  simp only [processResourceTick]
  induction units with
  | nil => exact .nil
  | cons u rest ih =>
    simp only [List.map_cons]
    exact .cons ⟨rfl, rfl, rfl, rfl, rfl⟩ ih

/-- Claim C6: a gather order for a unit whose inventory is already full,
or whose target resource entity no longer resolves, is rejected as a
no-op — the event handler returns the world unchanged, so no
`GatherTask` is attached and every component keeps its prior value. -/
theorem C6_issue_reject (rid : ℕ) (w : IssueWorld)
    (h : w.resource = none ∨ w.inventory.is_full = true) :
    issue_gather_task rid w = w := by
  rcases hres : w.resource with _ | nr
  · simp [issue_gather_task, hres]
  · rcases h with h | h
    · rw [hres] at h
      cases h
    · by_cases hu : w.unitExists = false <;>
        simp [issue_gather_task, hres, h, hu]

/-- A world whose gather event targets a vanished resource entity. -/
def c6World : IssueWorld := ⟨none, true, Inventory.new, false, none, none⟩

/-- Witness for C6: the order against a vanished resource is a no-op. -/
theorem C6_witness : issue_gather_task 3 c6World = c6World :=
  C6_issue_reject 3 c6World (Or.inl rfl)

/-- Claim C2 (amended): on a completed harvest tick with the resource
present, the inventory not full and `remaining % 2^16 ≠ 0` (the harvest
amount is computed through a `u32 → u16` cast, so an exact multiple of
65536 — unreachable in the game, where nodes spawn with at most 50 —
requests zero), exactly one item is requested from `add_items` (never
more than `remaining`), at most one item is added, and `remaining` is
decremented by exactly the amount actually added: the unfulfilled
remainder of a partial add is never returned to the node. -/
theorem C2_harvest_tick (dt : ℚ) (node : ResourceNode) (rpos : Vec3) (u : GUnit)
    (t : GatherTask) (ht : u.task = some t) (hstate : t.state = .Harvesting)
    (hrange : distLe (dist2 u.pos rpos) node.gather_radius = true)
    (hfull : u.inventory.is_full = false)
    (hrem : node.remaining % 65536 ≠ 0)
    (htimer : (timerTick t.timerElapsed t.timerDuration dt).2 = true) :
    (gatherUnitStep dt node rpos u).requested = 1 ∧
    (gatherUnitStep dt node rpos u).requested ≤ node.remaining ∧
    (gatherUnitStep dt node rpos u).added ≤ 1 ∧
    (gatherUnitStep dt node rpos u).node.remaining + (gatherUnitStep dt node rpos u).added
      = node.remaining ∧
    (gatherUnitStep dt node rpos u).unit.inventory.totalQty
      = u.inventory.totalQty + (gatherUnitStep dt node rpos u).added := by
  have hrem0 : node.remaining ≠ 0 := fun h => hrem (by simp [h])
  have hpos : 0 < node.remaining := Nat.pos_of_ne_zero hrem0
  have hga : min 1 (node.remaining % 65536) = 1 := by omega
  have hle := add_items_le u.inventory (ItemId.ofResourceKind node.kind) 1
    (ItemId.ofResourceKind node.kind).max_stack_size
  have htot := add_items_totalQty u.inventory (ItemId.ofResourceKind node.kind) 1
    (ItemId.ofResourceKind node.kind).max_stack_size
  simp only [gatherUnitStep, ht, hstate, hrange, hfull, hga, htimer,
    Bool.true_eq_false, Bool.false_eq_true, if_false, if_neg hrem0, Nat.zero_lt_one,
    true_and, hpos, and_true, if_true]
  split
  · refine ⟨rfl, ?_, ?_, ?_, ?_⟩
    · show (1 : ℕ) ≤ node.remaining
      omega
    · show (u.inventory.add_items (ItemId.ofResourceKind node.kind) 1
          (ItemId.ofResourceKind node.kind).max_stack_size).2 ≤ 1
      omega
    · show node.remaining -
          (u.inventory.add_items (ItemId.ofResourceKind node.kind) 1
            (ItemId.ofResourceKind node.kind).max_stack_size).2 +
          (u.inventory.add_items (ItemId.ofResourceKind node.kind) 1
            (ItemId.ofResourceKind node.kind).max_stack_size).2 = node.remaining
      omega
    · exact htot
  · have hz : (u.inventory.add_items (ItemId.ofResourceKind node.kind) 1
        (ItemId.ofResourceKind node.kind).max_stack_size).2 = 0 := by omega
    refine ⟨rfl, ?_, ?_, ?_, ?_⟩
    · show (1 : ℕ) ≤ node.remaining
      omega
    · show (0 : ℕ) ≤ 1
      omega
    · show node.remaining + 0 = node.remaining
      omega
    · show (u.inventory.add_items (ItemId.ofResourceKind node.kind) 1
          (ItemId.ofResourceKind node.kind).max_stack_size).1.totalQty
          = u.inventory.totalQty + 0
      omega

/-- A node holding exactly 2^16 items: the `remaining as u16` cast makes
the harvest tick request zero items. -/
def c2Node : ResourceNode := ⟨.Copper, 65536, 1, 3 / 2⟩

/-- A harvester standing on the node, mid-Harvest, empty inventory. -/
def c2Unit : GUnit := ⟨⟨0, 0, 0⟩, false, none, some ⟨7, 0, 1, .Harvesting⟩, Inventory.new⟩

/-- Claim C2 counterexample: with the resource present, `remaining =
65536 > 0`, the inventory not full and the harvest timer completing,
the tick requests and adds *zero* items (the claim says exactly one is
attempted): `1_u16.min(65536 as u16) = 0`. -/
theorem C2_counterexample :
    0 < c2Node.remaining ∧
    c2Unit.inventory.is_full = false ∧
    (timerTick 0 1 1).2 = true ∧
    distLe (dist2 c2Unit.pos ⟨0, 0, 0⟩) c2Node.gather_radius = true ∧
    (gatherUnitStep 1 c2Node ⟨0, 0, 0⟩ c2Unit).requested = 0 ∧
    (gatherUnitStep 1 c2Node ⟨0, 0, 0⟩ c2Unit).added = 0 ∧
    (gatherUnitStep 1 c2Node ⟨0, 0, 0⟩ c2Unit).node.remaining = c2Node.remaining := by
  have hfull : c2Unit.inventory.is_full = false := by decide
  have hrange : distLe (dist2 c2Unit.pos ⟨0, 0, 0⟩) c2Node.gather_radius = true := by
    norm_num [distLe, dist2, c2Unit, c2Node]
  have htick : (timerTick 0 1 1).2 = true := by norm_num [timerTick]
  refine ⟨by norm_num [c2Node], hfull, htick, hrange, ?_, ?_, ?_⟩ <;>
    · simp only [gatherUnitStep, c2Unit, c2Node]
      norm_num [timerTick, Inventory.is_full, Inventory.new, distLe, dist2]

/-- Witness for C2 at a concrete input: a copper node with 30 remaining,
harvester in range with an empty inventory, timer completing. -/
theorem C2_witness :
    (gatherUnitStep 1 ⟨.Copper, 30, 1, 3 / 2⟩ ⟨0, 0, 0⟩
        ⟨⟨0, 0, 0⟩, false, none, some ⟨7, 0, 1, .Harvesting⟩, Inventory.new⟩).requested = 1 ∧
    (gatherUnitStep 1 ⟨.Copper, 30, 1, 3 / 2⟩ ⟨0, 0, 0⟩
        ⟨⟨0, 0, 0⟩, false, none, some ⟨7, 0, 1, .Harvesting⟩, Inventory.new⟩).node.remaining +
      (gatherUnitStep 1 ⟨.Copper, 30, 1, 3 / 2⟩ ⟨0, 0, 0⟩
        ⟨⟨0, 0, 0⟩, false, none, some ⟨7, 0, 1, .Harvesting⟩, Inventory.new⟩).added = 30 := by
  have h := C2_harvest_tick 1 ⟨.Copper, 30, 1, 3 / 2⟩ ⟨0, 0, 0⟩
    ⟨⟨0, 0, 0⟩, false, none, some ⟨7, 0, 1, .Harvesting⟩, Inventory.new⟩
    ⟨7, 0, 1, .Harvesting⟩ rfl rfl
    (by norm_num [distLe, dist2])
    (by decide)
    (by norm_num)
    (by norm_num [timerTick])
  exact ⟨h.1, h.2.2.2.1⟩

/-- Claim C7 (amended): the gathering step relation permits, from
Walking, only the switch to Harvesting (distance within the gather
radius), staying in Walking, or task removal on resource invalidation;
from Harvesting, only reverting to Walking (range loss), Full (inventory
full), task removal (depletion or invalidation), or staying in
Harvesting; from Full, the task is untouched — *except* that resource
invalidation removes the task in every state, including Full (the
group-level check precedes the state match). -/
theorem C7_state_transitions (dt : ℚ) (resOpt : Option (ResourceNode × Vec3)) (u : GUnit)
    (t : GatherTask) (ht : u.task = some t) :
    (resOpt = none → (gatherStepChecked dt resOpt u).1.task = none) ∧
    (∀ node rpos, resOpt = some (node, rpos) →
      (t.state = .Walking →
        ((gatherStepChecked dt resOpt u).1.task = some { t with state := .Harvesting } ∧
          distLe (dist2 u.pos rpos) node.gather_radius = true) ∨
        ((gatherStepChecked dt resOpt u).1.task = some t ∧
          distLe (dist2 u.pos rpos) node.gather_radius = false)) ∧
      (t.state = .Harvesting →
        (∃ t', (gatherStepChecked dt resOpt u).1.task = some t' ∧ t'.state = .Walking ∧
          distLe (dist2 u.pos rpos) node.gather_radius = false) ∨
        (∃ t', (gatherStepChecked dt resOpt u).1.task = some t' ∧ t'.state = .Full ∧
          u.inventory.is_full = true) ∨
        ((gatherStepChecked dt resOpt u).1.task = none ∧ node.remaining = 0) ∨
        (∃ t', (gatherStepChecked dt resOpt u).1.task = some t' ∧ t'.state = .Harvesting)) ∧
      (t.state = .Full → (gatherStepChecked dt resOpt u).1.task = some t)) := by
  refine ⟨fun h => by subst h; simp [gatherStepChecked], ?_⟩
  intro node rpos h
  subst h
  refine ⟨?_, ?_, ?_⟩
  · intro hw
    simp only [gatherStepChecked, gatherUnitStep, ht, hw]
    by_cases hd : distLe (dist2 u.pos rpos) node.gather_radius = true
    · rw [if_pos hd]
      exact Or.inl ⟨rfl, hd⟩
    · have hd' : distLe (dist2 u.pos rpos) node.gather_radius = false :=
        Bool.of_not_eq_true hd
      rw [if_neg hd]
      exact Or.inr ⟨ht, hd'⟩
  · intro hh
    simp only [gatherStepChecked, gatherUnitStep, ht, hh]
    by_cases hd : distLe (dist2 u.pos rpos) node.gather_radius = true
    · rw [if_neg (by simp [hd])]
      by_cases hf : u.inventory.is_full = true
      · rw [if_pos hf]
        exact Or.inr (Or.inl ⟨{ t with state := .Full }, rfl, rfl, hf⟩)
      · rw [if_neg hf]
        by_cases hr : node.remaining = 0
        · rw [if_pos hr]
          exact Or.inr (Or.inr (Or.inl ⟨rfl, hr⟩))
        · rw [if_neg hr]
          refine Or.inr (Or.inr (Or.inr ?_))
          split
          · split
            · split
              · exact ⟨_, rfl, rfl⟩
              · exact ⟨_, rfl, rfl⟩
            · exact ⟨_, rfl, rfl⟩
          · exact ⟨_, rfl, rfl⟩
    · have hd' : distLe (dist2 u.pos rpos) node.gather_radius = false :=
        Bool.of_not_eq_true hd
      rw [if_pos hd']
      exact Or.inl ⟨{ t with state := .Walking }, rfl, rfl, hd'⟩
  · intro hfu
    simp [gatherStepChecked, gatherUnitStep, ht, hfu]

/-- A unit in the Full state whose target resource has despawned. -/
def c7FullUnit : GUnit := ⟨⟨0, 0, 0⟩, false, none, some ⟨9, 0, 1, .Full⟩, Inventory.new⟩

/-- Claim C7 counterexample: a unit in the Full state *does* have an
outgoing transition — when the target resource entity no longer
resolves, the gathering system removes its task with no external order
involved. -/
theorem C7_counterexample :
    c7FullUnit.task = some ⟨9, 0, 1, .Full⟩ ∧
    (gatherStepChecked 1 none c7FullUnit).1.task = none :=
  ⟨rfl, rfl⟩

/-- A Wood node and a Walking harvester one cell away (inside the
1.5-unit gather radius). -/
def c7Node : ResourceNode := ⟨.Wood, 50, 12 / 10, 3 / 2⟩

/-- The Walking unit used in the C7 witness. -/
def c7Unit : GUnit :=
  ⟨⟨0, 0, 0⟩, true, some ⟨1, 0, 0⟩, some ⟨9, 0, 5 / 6, .Walking⟩, Inventory.new⟩

/-- Witness for C7 at a concrete input: a Walking unit in range switches
to Harvesting. -/
theorem C7_witness :
    (gatherStepChecked 1 (some (c7Node, ⟨1, 0, 0⟩)) c7Unit).1.task =
      some { target := 9, timerElapsed := 0, timerDuration := 5 / 6,
             state := GatherState.Harvesting } := by
  have h := (C7_state_transitions 1 (some (c7Node, ⟨1, 0, 0⟩)) c7Unit
      ⟨9, 0, 5 / 6, .Walking⟩ rfl).2 c7Node ⟨1, 0, 0⟩ rfl
  have hw := h.1 rfl
  rcases hw with ⟨h1, _⟩ | ⟨_, h2⟩
  · exact h1
  · have hr : distLe (dist2 c7Unit.pos (⟨1, 0, 0⟩ : Vec3)) c7Node.gather_radius = true := by
      norm_num [distLe, dist2, c7Unit, c7Node]
    rw [hr] at h2
    cases h2

/-! ## Movement claims -/

lemma rustRound_intCast (n : ℤ) : rustRound (n : ℚ) = n := by
  unfold rustRound
  by_cases h : 0 ≤ (n : ℚ)
  · rw [if_pos h, add_comm, Int.floor_add_int]
    norm_num
  · rw [if_neg h]
    have he : (1 : ℚ) / 2 - (n : ℚ) = 1 / 2 + ((-n : ℤ) : ℚ) := by
      push_cast
      ring
    rw [he, Int.floor_add_int]
    norm_num

/-- Claim C9: both grid-snap variants are idempotent — the movement
variant that pins the vertical axis to the fixed ground height, and the
gathering/input variant that preserves the original height.  (Both are
plain functions of their argument, hence deterministic.) -/
theorem C9_snap_idempotent (p : Vec3) :
    Movement.snap_to_grid (Movement.snap_to_grid p) = Movement.snap_to_grid p ∧
    Gathering.snap_to_grid (Gathering.snap_to_grid p) = Gathering.snap_to_grid p := by
  constructor
  · simp [Movement.snap_to_grid, gridSize, rustRound_intCast]
  · simp [Gathering.snap_to_grid, rustRound_intCast]

/-- Claim C8: a moving unit whose horizontal distance to its arbitrated
final destination is within the arrival threshold at the start of its
integrator step is snapped exactly onto the (horizontal) final
destination, and its `Moving`, `Destination` and `StuckTimer` components
are all removed in that tick; the facing is untouched. -/
theorem C8_move_arrival (sqrtFn : ℚ → ℚ) (dt : ℚ) (obstacles : List Obstacle)
    (allUnits : List (ℕ × Vec3 × ℚ)) (selfId : ℕ) (collision : Option UnitCollision)
    (cur destTarget finalDest : Vec3) (stuck : Option StuckTimer) (facing : Option Vec3)
    (h : distLe (dist2 cur ⟨finalDest.x, cur.y, finalDest.z⟩) arrival_threshold = true) :
    moveUnitStep sqrtFn dt obstacles allUnits selfId collision cur destTarget finalDest
        stuck facing =
      ⟨⟨finalDest.x, cur.y, finalDest.z⟩, false, none, none, facing⟩ := by
  simp only [moveUnitStep]
  rw [if_pos h]

/-- Witness for C8 at a concrete input: a unit already standing on its
final destination arrives and sheds all three movement components. -/
theorem C8_witness :
    distLe (dist2 ⟨0, 0, 0⟩ ⟨0, 0, 0⟩) arrival_threshold = true ∧
    moveUnitStep (fun q => q) 1 [] [] 0 none ⟨0, 0, 0⟩ ⟨5, 0, 5⟩ ⟨0, 0, 0⟩ none none =
      ⟨⟨0, 0, 0⟩, false, none, none, none⟩ := by
  have h : distLe (dist2 (⟨0, 0, 0⟩ : Vec3) ⟨0, 0, 0⟩) arrival_threshold = true := by
    norm_num [distLe, dist2, arrival_threshold]
  exact ⟨h, C8_move_arrival (fun q => q) 1 [] [] 0 none ⟨0, 0, 0⟩ ⟨5, 0, 5⟩ ⟨0, 0, 0⟩
    none none h⟩

/-! ## Arbitration invariants (C1) -/

lemma cellFree_spec {assigned : List Vec3} {c : Vec3} (h : cellFree assigned c = true) :
    ∀ p ∈ assigned, ¬ (dist2 p c < 1 / 100) := by
  intro p hp hlt
  simp only [cellFree, Bool.not_eq_true', List.any_eq_false] at h
  apply h p hp
  simp only [distLt, Bool.and_eq_true, decide_eq_true_eq]
  refine ⟨by norm_num, ?_⟩
  have he : ((1 : ℚ) / 10) ^ 2 = 1 / 100 := by norm_num
  rw [he]
  exact hlt

/-- Every cell claimed by the assignment loop avoids (within the 0.1
conflict radius) every cell that was already assigned when the loop
started. -/
lemma assignLoop_claimed_avoid (units : List MovUnit) :
    ∀ (assigned : List Vec3) (e : ArbEntry), e ∈ assignLoop units assigned →
      e.claimed = true → ∀ p ∈ assigned, ¬ (dist2 p e.cell < 1 / 100) := by
  induction units with
  | nil =>
    intro assigned e he
    simp [assignLoop] at he
  | cons u rest ih =>
    intro assigned e he hc p hp
    simp only [assignLoop] at he
    by_cases hfree : cellFree assigned (Movement.snap_to_grid u.targetPos) = true
    · rw [if_pos hfree] at he
      rcases List.mem_cons.mp he with he | he
      · subst he
        exact cellFree_spec hfree p hp
      · exact ih _ e he hc p (List.mem_append_left _ hp)
    · rw [if_neg hfree] at he
      cases hfind : (generate_formation_alternatives (Movement.snap_to_grid u.targetPos)
          u.pos).find? (fun c => cellFree assigned c) with
      | some alt =>
        rw [hfind] at he
        rcases List.mem_cons.mp he with he | he
        · subst he
          exact cellFree_spec (List.find?_some hfind) p hp
        · exact ih _ e he hc p (List.mem_append_left _ hp)
      | none =>
        rw [hfind] at he
        rcases List.mem_cons.mp he with he | he
        · subst he
          cases hc
        · exact ih _ e he hc p hp

/-- Any two claimed entries of the assignment loop sit on cells at least
0.1 apart (in particular, on distinct cells). -/
lemma assignLoop_pairwise (units : List MovUnit) :
    ∀ assigned : List Vec3,
      List.Pairwise
        (fun e1 e2 => e1.claimed = true → e2.claimed = true →
          ¬ (dist2 e1.cell e2.cell < 1 / 100))
        (assignLoop units assigned) := by
  induction units with
  | nil => intro assigned; simp [assignLoop]
  | cons u rest ih =>
    intro assigned
    simp only [assignLoop]
    by_cases hfree : cellFree assigned (Movement.snap_to_grid u.targetPos) = true
    · rw [if_pos hfree]
      refine List.Pairwise.cons ?_ (ih _)
      intro e2 he2 _ hc2
      exact assignLoop_claimed_avoid rest _ e2 he2 hc2 _
        (List.mem_append_right _ (List.mem_singleton_self _))
    · rw [if_neg hfree]
      cases hfind : (generate_formation_alternatives (Movement.snap_to_grid u.targetPos)
          u.pos).find? (fun c => cellFree assigned c) with
      | some alt =>
        refine List.Pairwise.cons ?_ (ih _)
        intro e2 he2 _ hc2
        exact assignLoop_claimed_avoid rest _ e2 he2 hc2 _
          (List.mem_append_right _ (List.mem_singleton_self _))
      | none =>
        refine List.Pairwise.cons ?_ (ih _)
        intro e2 _ hc1 _
        cases hc1

/-- Entries that fall back keep the unit's own snapped current cell. -/
lemma assignLoop_unclaimed (units : List MovUnit) :
    ∀ (assigned : List Vec3) (e : ArbEntry), e ∈ assignLoop units assigned →
      e.claimed = false → e.cell = Movement.snap_to_grid e.unit.pos := by
  induction units with
  | nil =>
    intro assigned e he
    simp [assignLoop] at he
  | cons u rest ih =>
    intro assigned e he hc
    simp only [assignLoop] at he
    by_cases hfree : cellFree assigned (Movement.snap_to_grid u.targetPos) = true
    · rw [if_pos hfree] at he
      rcases List.mem_cons.mp he with he | he
      · subst he
        cases hc
      · exact ih _ e he hc
    · rw [if_neg hfree] at he
      cases hfind : (generate_formation_alternatives (Movement.snap_to_grid u.targetPos)
          u.pos).find? (fun c => cellFree assigned c) with
      | some alt =>
        rw [hfind] at he
        rcases List.mem_cons.mp he with he | he
        · subst he
          cases hc
        · exact ih _ e he hc
      | none =>
        rw [hfind] at he
        rcases List.mem_cons.mp he with he | he
        · subst he
          rfl
        · exact ih _ e he hc

/-- Claim C1 (amended): after the arbitration pre-pass, any two entries
whose cells were genuinely *claimed* hold distinct cells, and a claimed
cell never coincides with a stationary unit's (snapped) cell; a unit for
which no free cell existed keeps its own current grid cell — but that
fallback cell is left unreserved, so it may coincide with another unit's
assignment (see the counterexample). -/
theorem C1_arbitration_conflict_free (stationary : List Vec3) (movers : List MovUnit) :
    List.Pairwise
      (fun e1 e2 => e1.claimed = true → e2.claimed = true → e1.cell ≠ e2.cell)
      (arbitrate stationary movers) ∧
    (∀ e ∈ arbitrate stationary movers, e.claimed = true →
      ∀ s ∈ stationary, e.cell ≠ Movement.snap_to_grid s) ∧
    (∀ e ∈ arbitrate stationary movers, e.claimed = false →
      e.cell = Movement.snap_to_grid e.unit.pos) := by
  refine ⟨?_, ?_, ?_⟩
  · refine (assignLoop_pairwise (stableSort unitOrderLe movers)
      (stationary.map Movement.snap_to_grid)).imp ?_
    intro e1 e2 hR hc1 hc2 heq
    apply hR hc1 hc2
    rw [heq, dist2_self]
    norm_num
  · intro e he hc s hs heq
    apply assignLoop_claimed_avoid (stableSort unitOrderLe movers) _ e he hc
      (Movement.snap_to_grid s) (List.mem_map_of_mem _ hs)
    rw [heq, dist2_self]
    norm_num
  · intro e he hc
    exact assignLoop_unclaimed (stableSort unitOrderLe movers) _ e he hc

/-- Stationary units occupying cell (0,0) and all 20 formation
alternatives around it. -/
def c1Stationary : List Vec3 :=
  [⟨0, 0, 0⟩, ⟨1, 0, 0⟩, ⟨-1, 0, 0⟩, ⟨0, 0, 1⟩, ⟨0, 0, -1⟩,
   ⟨1, 0, 1⟩, ⟨-1, 0, 1⟩, ⟨1, 0, -1⟩, ⟨-1, 0, -1⟩,
   ⟨2, 0, 0⟩, ⟨-2, 0, 0⟩, ⟨0, 0, 2⟩, ⟨0, 0, -2⟩,
   ⟨2, 0, 1⟩, ⟨1, 0, 2⟩, ⟨-2, 0, 1⟩, ⟨-1, 0, 2⟩,
   ⟨2, 0, -1⟩, ⟨1, 0, -2⟩, ⟨-2, 0, -1⟩, ⟨-1, 0, -2⟩]

/-- A mover at (5,0) ordered into the fully saturated cluster: every
cell in its search radius is taken, so it falls back to its own cell. -/
def c1A : MovUnit := ⟨1, ⟨5, 0, 0⟩, ⟨0, 0, 0⟩, false⟩

/-- A farther mover ordered exactly onto A's current cell (5,0). -/
def c1B : MovUnit := ⟨2, ⟨11, 0, 0⟩, ⟨5, 0, 0⟩, false⟩

set_option maxHeartbeats 4000000 in
/-- Claim C1 counterexample: the stay-put fallback cell is not pushed
onto `assigned_destinations`, so it is *not* protected: unit 1 exhausts
its search radius and keeps its current cell (5,0) unclaimed, and unit 2
— a different unit, whose assignment is a genuine claim, not a fallback
— is then assigned that very same final cell.  Two distinct units end up
with the same final grid cell, which the claim as stated rules out. -/
theorem C1_counterexample :
    (arbitrate c1Stationary [c1A, c1B]).map (fun e => (e.unit.id, e.cell, e.claimed)) =
      [(1, ⟨5, 1 / 10, 0⟩, false), (2, ⟨5, 1 / 10, 0⟩, true)] ∧
    c1A.id ≠ c1B.id := by
  constructor
  · norm_num [arbitrate, assignLoop, stableSort, insertSorted, unitOrderLe, cellFree,
      generate_formation_alternatives, Movement.snap_to_grid, MovUnit.targetPos,
      dist2, distLt, rustRound, gridSize, c1Stationary, c1A, c1B, List.any,
      List.find?_cons]
  · decide

/-- The single stationary unit of the C1 witness. -/
def c1WitStat : Vec3 := ⟨0, 0, 0⟩

/-- The single mover of the C1 witness: its target cell (0,0) is
occupied, so it claims the nearest free alternative. -/
def c1WitUnit : MovUnit := ⟨1, ⟨3, 0, 0⟩, ⟨0, 0, 0⟩, false⟩

set_option maxHeartbeats 4000000 in
/-- Witness for C1 at a concrete input: the claimed alternative cell is
distinct from the stationary unit's cell. -/
theorem C1_witness :
    arbitrate [c1WitStat] [c1WitUnit] = [⟨c1WitUnit, ⟨1, 1 / 10, 0⟩, true⟩] ∧
    (⟨1, 1 / 10, 0⟩ : Vec3) ≠ Movement.snap_to_grid c1WitStat := by
  have heval : arbitrate [c1WitStat] [c1WitUnit] = [⟨c1WitUnit, ⟨1, 1 / 10, 0⟩, true⟩] := by
    norm_num [arbitrate, assignLoop, stableSort, insertSorted, unitOrderLe, cellFree,
      generate_formation_alternatives, Movement.snap_to_grid, MovUnit.targetPos,
      dist2, distLt, rustRound, gridSize, c1WitStat, c1WitUnit, List.any,
      List.find?_cons]
  have hmem : (⟨c1WitUnit, ⟨1, 1 / 10, 0⟩, true⟩ : ArbEntry) ∈
      arbitrate [c1WitStat] [c1WitUnit] := by
    rw [heval]
    exact List.mem_singleton_self _
  exact ⟨heval,
    (C1_arbitration_conflict_free [c1WitStat] [c1WitUnit]).2.1 _ hmem rfl c1WitStat
      (List.mem_singleton_self _)⟩

end Osrssg
